import Mathlib

/-!
Verification of the workout-optimizer backend against its specification.

The definitions below are shallow embeddings of the Python source:

* `deduplicate_workouts`   — backend/services/workout_service.py, lines 53–116
* `calculate_workout_metrics` — same file, lines 119–165
* `buildRecord` / `processBatch` — same file, lines 233–263 (per-page record building)
* `upsert1` / `upsertBatch` — same file, lines 265–287 together with the
  unique key of backend/db/models.py, `WorkoutCache` (lines 149–181)
* `detect_plateaus`        — backend/agents/tools/workout_tools.py, lines 543–636
* `searchGo` / `syncRun` — the pagination loops of workout_tools.py
  `search_exercises` (lines 156–181) and workout_service.py
  `sync_hevy_workouts` (lines 217–295)

Timestamps are modelled as integers (seconds for workout instants, whole
days for plateau session dates); weights and volumes as rationals.
Python `int(x)` on a float quotient truncates toward zero, which is
`Int.tdiv` here; Python exceptions become `Option`/`none`.
-/

namespace WorkoutOptimizer

/-! Dedup reconciler: (workout_service.py, `deduplicate_workouts`) -/

/-- A row of the workout cache as seen by `deduplicate_workouts`:
only `source`, `workout_date` and `duration_minutes` are inspected,
`tag` stands for the remaining payload so records stay distinguishable. -/
structure CachedWorkout where
  source : String
  workout_date : Int
  duration_minutes : Option Int
  tag : String
  deriving DecidableEq, Repr

/-- The duplicate test of lines 87–107: direct overlap (`delta < 1800`) or
timezone-shift match, applied against every `(h_time, h_dur)` pair.
Durations were already defaulted to `0` when building `hevy_data` (line 80)
and for the candidate itself (line 85). -/
def isDuplicate (hevy_data : List (Int × Int)) (other : CachedWorkout) : Bool :=
  let other_dur := other.duration_minutes.getD 0
  hevy_data.any fun p =>
    let delta := (other.workout_date - p.1).natAbs
    decide (delta < 1800) ||
      (decide ((other_dur - p.2).natAbs ≤ 2) &&
        decide (delta < 86400) &&
        (decide (delta % 3600 < 300) || decide (delta % 3600 > 3300)))

/-- Stable-enough descending insertion: the element goes in front of the
first strictly older record (`combined.sort(key=..., reverse=True)`,
line 114; only the permutation matters for the claims below). -/
def insertDesc (w : CachedWorkout) : List CachedWorkout → List CachedWorkout
  | [] => [w]
  | x :: xs => if x.workout_date < w.workout_date then w :: x :: xs else x :: insertDesc w xs

/-- Sort descending by `workout_date`. -/
def sortDesc (l : List CachedWorkout) : List CachedWorkout :=
  l.foldr insertDesc []

/-- Function `deduplicate_workouts` (lines 53–116): keep every `hevy` record, drop
each other-source record that duplicates one, sort descending by date. -/
def deduplicate_workouts (workouts : List CachedWorkout) : List CachedWorkout :=
  if workouts = [] then []
  else
    let hevy_workouts := workouts.filter fun w => w.source == "hevy"
    let other_workouts := workouts.filter fun w => !(w.source == "hevy")
    if hevy_workouts = [] then workouts
    else
      let hevy_data := hevy_workouts.map fun w => (w.workout_date, w.duration_minutes.getD 0)
      let filtered_others := other_workouts.filter fun o => !(isDuplicate hevy_data o)
      sortDesc (hevy_workouts ++ filtered_others)

theorem mem_insertDesc (a w : CachedWorkout) (l : List CachedWorkout) :
    a ∈ insertDesc w l ↔ a = w ∨ a ∈ l := by
  induction l with
  | nil => simp [insertDesc]
  | cons x xs ih =>
      by_cases h : x.workout_date < w.workout_date
      · simp [insertDesc, h]
      · simp [insertDesc, h, ih]
        tauto

theorem mem_sortDesc (a : CachedWorkout) (l : List CachedWorkout) :
    a ∈ sortDesc l ↔ a ∈ l := by
  induction l with
  | nil => simp [sortDesc]
  | cons x xs ih =>
      simp only [sortDesc, List.foldr_cons] at *
      rw [mem_insertDesc, ih, List.mem_cons]

/-- Any record of the input that carries the authoritative source lands in
the `hevy_workouts` partition. -/
theorem mem_hevy_filter (ws : List CachedWorkout) (w : CachedWorkout)
    (hw : w ∈ ws) (hsrc : w.source = "hevy") :
    w ∈ ws.filter fun x => x.source == "hevy" := by
  exact List.mem_filter.mpr ⟨hw, by simp [hsrc]⟩

/-- C2. Every record whose source is the authoritative one (`"hevy"`)
appears unchanged in the output of `deduplicate_workouts`; only
other-source records can be removed. -/
theorem dedup_keeps_authoritative (ws : List CachedWorkout) (w : CachedWorkout)
    (hw : w ∈ ws) (hsrc : w.source = "hevy") :
    w ∈ deduplicate_workouts ws := by
  have hne : ws ≠ [] := by intro h; subst h; exact absurd hw (List.not_mem_nil w)
  have hh : w ∈ ws.filter fun x => x.source == "hevy" := mem_hevy_filter ws w hw hsrc
  have hhne : (ws.filter fun x => x.source == "hevy") ≠ [] := by
    intro h; rw [h] at hh; exact absurd hh (List.not_mem_nil w)
  simp only [deduplicate_workouts, if_neg hne, if_neg hhne]
  rw [mem_sortDesc, List.mem_append]
  exact Or.inl hh

theorem dedup_keeps_authoritative_witness :
    let A : CachedWorkout := ⟨"hevy", 0, some 60, "lift"⟩
    let O : CachedWorkout := ⟨"apple", 10000, some 30, "walk"⟩
    A ∈ deduplicate_workouts [A, O] :=
  dedup_keeps_authoritative [⟨"hevy", 0, some 60, "lift"⟩, ⟨"apple", 10000, some 30, "walk"⟩]
    ⟨"hevy", 0, some 60, "lift"⟩ (by decide) (by decide)

/-- C1. Every surviving non-authoritative record has no authoritative
record of the input within 1800 seconds, and none matching the
timezone-shift rule (durations defaulted to 0 when missing, exactly as the
code's `hevy_data` construction does). -/
theorem dedup_survivor_no_match (ws : List CachedWorkout) (O A : CachedWorkout)
    (hO : O ∈ deduplicate_workouts ws) (hOsrc : O.source ≠ "hevy")
    (hA : A ∈ ws) (hAsrc : A.source = "hevy") :
    ¬ ((O.workout_date - A.workout_date).natAbs < 1800) ∧
    ¬ ((O.duration_minutes.getD 0 - A.duration_minutes.getD 0).natAbs ≤ 2 ∧
       (O.workout_date - A.workout_date).natAbs < 86400 ∧
       ((O.workout_date - A.workout_date).natAbs % 3600 < 300 ∨
        (O.workout_date - A.workout_date).natAbs % 3600 > 3300)) := by
  have hne : ws ≠ [] := by intro h; subst h; exact absurd hA (List.not_mem_nil A)
  have hh : A ∈ ws.filter fun x => x.source == "hevy" := mem_hevy_filter ws A hA hAsrc
  have hhne : (ws.filter fun x => x.source == "hevy") ≠ [] := by
    intro h; rw [h] at hh; exact absurd hh (List.not_mem_nil A)
  simp only [deduplicate_workouts, if_neg hne, if_neg hhne] at hO
  rw [mem_sortDesc, List.mem_append] at hO
  rcases hO with hO | hO
  · exact absurd (by simpa using (List.mem_filter.mp hO).2) hOsrc
  · have hnd := (List.mem_filter.mp hO).2
    simp only [Bool.not_eq_true'] at hnd
    have hpair : (A.workout_date, A.duration_minutes.getD 0) ∈
        (ws.filter fun x => x.source == "hevy").map
          fun w => (w.workout_date, w.duration_minutes.getD 0) :=
      List.mem_map.mpr ⟨A, hh, rfl⟩
    rw [isDuplicate, List.any_eq_false] at hnd
    have := hnd _ hpair
    simp only [Bool.or_eq_true, Bool.and_eq_true, decide_eq_true_eq, not_or,
      Decidable.not_and_iff_or_not] at this ⊢
    constructor
    · exact this.1
    · tauto

theorem dedup_survivor_no_match_witness :
    let A : CachedWorkout := ⟨"hevy", 0, some 60, "lift"⟩
    let O : CachedWorkout := ⟨"apple", 10000, some 30, "walk"⟩
    ¬ ((O.workout_date - A.workout_date).natAbs < 1800) ∧
    ¬ ((O.duration_minutes.getD 0 - A.duration_minutes.getD 0).natAbs ≤ 2 ∧
       (O.workout_date - A.workout_date).natAbs < 86400 ∧
       ((O.workout_date - A.workout_date).natAbs % 3600 < 300 ∨
        (O.workout_date - A.workout_date).natAbs % 3600 > 3300)) :=
  dedup_survivor_no_match [⟨"hevy", 0, some 60, "lift"⟩, ⟨"apple", 10000, some 30, "walk"⟩]
    ⟨"apple", 10000, some 30, "walk"⟩ ⟨"hevy", 0, some 60, "lift"⟩
    (by decide) (by decide) (by decide) (by decide)

/-- C10. A non-authoritative record with `duration_minutes = none` is
treated as duration 0: it is discarded whenever some authoritative record
has |duration| ≤ 2 (after its own default to 0) and starts within 86400
seconds with the offset within 5 minutes of a whole hour — even many hours
apart. -/
theorem dedup_none_duration_discarded (ws : List CachedWorkout) (O A : CachedWorkout)
    (_hO : O ∈ ws) (hOsrc : O.source ≠ "hevy") (hOdur : O.duration_minutes = none)
    (hA : A ∈ ws) (hAsrc : A.source = "hevy")
    (hAdur : (A.duration_minutes.getD 0).natAbs ≤ 2)
    (hdelta : (O.workout_date - A.workout_date).natAbs < 86400)
    (hrem : (O.workout_date - A.workout_date).natAbs % 3600 < 300 ∨
            (O.workout_date - A.workout_date).natAbs % 3600 > 3300) :
    O ∉ deduplicate_workouts ws := by
  intro hmem
  have h := dedup_survivor_no_match ws O A hmem hOsrc hA hAsrc
  exact h.2 ⟨by simpa [hOdur] using hAdur, hdelta, hrem⟩

theorem dedup_none_duration_discarded_witness :
    let A : CachedWorkout := ⟨"hevy", 0, some 2, "lift"⟩
    let O : CachedWorkout := ⟨"apple", 18000, none, "walk"⟩
    O ∉ deduplicate_workouts [A, O] :=
  dedup_none_duration_discarded [⟨"hevy", 0, some 2, "lift"⟩, ⟨"apple", 18000, none, "walk"⟩]
    ⟨"apple", 18000, none, "walk"⟩ ⟨"hevy", 0, some 2, "lift"⟩
    (by decide) (by decide) (by decide) (by decide) (by decide) (by decide) (by decide)
    (by decide)

/-! Metric calculator: (`_calculate_workout_metrics`, lines 119–165) -/

/-- One set of an exercise: `weight_kg` and `reps` as they come out of the
raw workout dict (`none` = key absent). -/
structure SetData where
  weight_kg : Option ℚ
  reps : Option Nat
  deriving DecidableEq, Repr

structure Exercise where
  sets : List SetData
  deriving DecidableEq, Repr

/-- A raw workout from the remote service, after the naming-convention
normalisation of lines 131–132 (`startTime`/`start_time` collapse into one
optional field); instants are seconds. -/
structure RawWorkout where
  id : String
  title : Option String
  start_time : Option Int
  end_time : Option Int
  exercises : List Exercise
  deriving DecidableEq, Repr

structure Metrics where
  duration_minutes : Int
  total_sets : Nat
  total_volume_kg : ℚ
  bodyweight_reps : Nat
  exercise_count : Nat
  deriving DecidableEq, Repr

/-- Volume contribution of one set (line 152–154): `weight * reps` when the
weight key is present, with `reps` defaulting to 0. -/
def setVolume (s : SetData) : ℚ :=
  match s.weight_kg with
  | some w => w * (s.reps.getD 0 : Nat)
  | none => 0

/-- Bodyweight-reps contribution of one set (lines 155–157): only when the
weight is absent and `reps` is truthy. -/
def setBodyweightReps (s : SetData) : Nat :=
  match s.weight_kg with
  | some _ => 0
  | none => if s.reps.getD 0 ≠ 0 then s.reps.getD 0 else 0

/-- Python `round(x, 2)`: round to 2 decimal places, ties to even
(modelled exactly on rationals; the float representation error of the
source is not modelled). -/
def round2 (q : ℚ) : ℚ :=
  let n : Int := Int.floor (q * 100)
  let frac : ℚ := q * 100 - (n : ℚ)
  let r : Int :=
    if frac < 1/2 then n
    else if 1/2 < frac then n + 1
    else if n % 2 = 0 then n else n + 1
  (r : ℚ) / 100

/-- Function `_calculate_workout_metrics` (lines 119–165). A missing start or end
instant raises in the source (`None.replace`), modelled as `none`;
`int(.../60)` truncates toward zero, which is `Int.tdiv`. -/
def calculate_workout_metrics (w : RawWorkout) : Option Metrics :=
  match w.start_time, w.end_time with
  | some s, some e =>
      some
        { duration_minutes := (e - s).tdiv 60
          total_sets := (w.exercises.map fun ex => ex.sets.length).sum
          total_volume_kg := round2 ((w.exercises.map fun ex => (ex.sets.map setVolume).sum).sum)
          bodyweight_reps := (w.exercises.map fun ex => (ex.sets.map setBodyweightReps).sum).sum
          exercise_count := w.exercises.length }
  | _, _ => none

/-- C3. Per set: a present weight contributes `weight × reps` (reps
defaulting to 0) to volume and nothing to bodyweight reps; an absent
weight contributes nothing to volume and its reps (when present) to
bodyweight reps; no set feeds both accumulators. The two-set example
yields volume 500 and bodyweight reps 10. -/
theorem metrics_volume_bodyweight_exclusive :
    (∀ (s : SetData) (w : ℚ), s.weight_kg = some w →
        setVolume s = w * (s.reps.getD 0 : Nat) ∧ setBodyweightReps s = 0) ∧
    (∀ s : SetData, s.weight_kg = none →
        setVolume s = 0 ∧ ∀ r : Nat, s.reps = some r → setBodyweightReps s = r) ∧
    (∀ s : SetData, setVolume s = 0 ∨ setBodyweightReps s = 0) ∧
    (calculate_workout_metrics
        ⟨"w1", some "Push Day", some 0, some 3600,
          [⟨[⟨some 100, some 5⟩, ⟨none, some 10⟩]⟩]⟩).map
        (fun m => (m.total_volume_kg, m.bodyweight_reps)) = some (500, 10) := by
  refine ⟨?_, ?_, ?_, ?_⟩
  · rintro ⟨w?, r?⟩ w rfl
    exact ⟨rfl, rfl⟩
  · rintro ⟨w?, r?⟩ rfl
    refine ⟨rfl, ?_⟩
    rintro r rfl
    by_cases h : r = 0 <;> simp [setBodyweightReps, h]
  · rintro ⟨w?, r?⟩
    cases w? with
    | none => exact Or.inl rfl
    | some w => exact Or.inr rfl
  · show Option.map _ (some _) = _
    rw [Option.map_some']
    refine congrArg some (Prod.ext ?_ ?_)
    · show round2 _ = 500
      have hsum : ((([⟨[⟨some 100, some 5⟩, ⟨none, some 10⟩]⟩] :
          List Exercise).map fun ex => (ex.sets.map setVolume).sum).sum : ℚ) = 500 := by
        simp [setVolume]
        norm_num
      rw [hsum, round2]
      norm_num
    · simp [setBodyweightReps]

theorem metrics_volume_bodyweight_exclusive_witness :
    setVolume ⟨some 100, some 5⟩ = (500 : ℚ) ∧ setBodyweightReps ⟨none, some 10⟩ = 10 := by
  constructor
  · have h := (metrics_volume_bodyweight_exclusive.1 ⟨some 100, some 5⟩ 100 rfl).1
    rw [h]; norm_num
  · exact (metrics_volume_bodyweight_exclusive.2.1 ⟨none, some 10⟩ rfl).2 10 rfl

/-- C4 (amended). With both instants present, `duration_minutes` is
`(end − start)/60` truncated toward zero (Python `int()`, i.e. `Int.tdiv`), unclamped; this
agrees with the floor only when the difference is nonnegative. -/
theorem duration_truncates_toward_zero (w : RawWorkout) (s e : Int)
    (hs : w.start_time = some s) (he : w.end_time = some e) :
    (calculate_workout_metrics w).map Metrics.duration_minutes = some ((e - s).tdiv 60) ∧
    (0 ≤ e - s → (e - s).tdiv 60 = (e - s).fdiv 60) := by
  constructor
  · simp [calculate_workout_metrics, hs, he]
  · intro h
    exact (Int.fdiv_eq_tdiv h (by norm_num)).symm

theorem duration_truncates_toward_zero_witness :
    (calculate_workout_metrics ⟨"w2", none, some 0, some 5430, []⟩).map
        Metrics.duration_minutes = some (((5430 : Int) - 0).tdiv 60) ∧
    (0 ≤ (5430 : Int) - 0 → ((5430 : Int) - 0).tdiv 60 = ((5430 : Int) - 0).fdiv 60) :=
  duration_truncates_toward_zero ⟨"w2", none, some 0, some 5430, []⟩ 0 5430 rfl rfl

/-- C4 counterexample. When the end precedes the start by 90 seconds the
code yields −1 (truncation toward zero), not the floor −2 the claim
states. -/
theorem duration_not_floor_counterexample :
    (calculate_workout_metrics ⟨"w3", none, some 90, some 0, []⟩).map
        Metrics.duration_minutes = some (-1) ∧
    ((0 : Int) - 90).fdiv 60 = -2 ∧ ((-1 : Int) ≠ -2) := by
  decide

/-! Sync record building: (`sync_hevy_workouts`, lines 233–263) -/

/-- The values-row handed to the bulk insert (lines 248–262). -/
structure Record where
  user_id : Nat
  source : String
  source_workout_id : String
  workout_date : Int
  title : String
  duration_minutes : Int
  total_sets : Nat
  total_volume_kg : ℚ
  bodyweight_reps : Nat
  exercise_count : Nat
  calories_burned : Option Int
  muscle_groups : List String
  workout_data : RawWorkout
  deriving DecidableEq, Repr

/-- Build the row for one fetched workout (lines 236–263). `mg` stands for
`_extract_muscle_groups`, a pure lookup whose output none of the claims
constrain. The metric computation raises on a missing instant, so the
whole construction is `none` then. -/
def buildRecord (mg : RawWorkout → List String) (uid : Nat) (w : RawWorkout) : Option Record :=
  (calculate_workout_metrics w).bind fun m =>
    w.start_time.map fun s =>
      { user_id := uid
        source := "hevy"
        source_workout_id := w.id
        workout_date := s
        title := w.title.getD "Untitled Workout"
        duration_minutes := m.duration_minutes
        total_sets := m.total_sets
        total_volume_kg := m.total_volume_kg
        bodyweight_reps := m.bodyweight_reps
        exercise_count := m.exercise_count
        calories_burned := none
        muscle_groups := mg w
        workout_data := w }

/-- The per-page loop of lines 234–263: records are built one after the
other with no per-record exception handling, so one failure aborts the
whole page before anything is upserted. -/
def processBatch (mg : RawWorkout → List String) (uid : Nat) :
    List RawWorkout → Option (List Record)
  | [] => some []
  | w :: ws =>
      match buildRecord mg uid w with
      | none => none
      | some r => (processBatch mg uid ws).map fun rs => r :: rs

/-- C5 (amended). A fetched workout missing its required start or end
instant aborts the whole page: `processBatch` yields no record list at
all, instead of skipping the offending record. -/
theorem batch_aborts_on_missing_timestamp (mg : RawWorkout → List String) (uid : Nat)
    (ws : List RawWorkout) (w : RawWorkout) (hw : w ∈ ws)
    (hmiss : w.start_time = none ∨ w.end_time = none) :
    processBatch mg uid ws = none := by
  have hrec : buildRecord mg uid w = none := by
    have hm : calculate_workout_metrics w = none := by
      rcases hmiss with h | h
      · rw [calculate_workout_metrics, h]
      · rw [calculate_workout_metrics, h]
        rcases w.start_time with _ | s <;> rfl
    rw [buildRecord, hm, Option.none_bind]
  induction ws with
  | nil => exact absurd hw (List.not_mem_nil w)
  | cons x xs ih =>
      rcases List.mem_cons.mp hw with rfl | hx
      · rw [processBatch, hrec]
      · rw [processBatch]
        rcases hb : buildRecord mg uid x with _ | r
        · rfl
        · rw [ih hx]; rfl

theorem batch_aborts_on_missing_timestamp_witness :
    processBatch (fun _ => []) 7
      [⟨"good", some "Push", some 0, some 3600, []⟩,
       ⟨"bad", some "Walk", none, some 3600, []⟩] = none :=
  batch_aborts_on_missing_timestamp (fun _ => []) 7
    [⟨"good", some "Push", some 0, some 3600, []⟩, ⟨"bad", some "Walk", none, some 3600, []⟩]
    ⟨"bad", some "Walk", none, some 3600, []⟩ (by decide) (Or.inl rfl)

/-- C5 counterexample. With the offending record present the page
yields nothing (no record is processed, no count returned), although the
same page without it processes fine — refuting skip-and-continue. -/
theorem batch_abort_counterexample :
    (processBatch (fun _ => []) 7
      [⟨"good", some "Push", some 0, some 3600, []⟩,
       ⟨"bad", some "Walk", none, some 3600, []⟩]).isSome = false ∧
    (processBatch (fun _ => []) 7
      [⟨"good", some "Push", some 0, some 3600, []⟩]).isSome = true := by
  constructor
  · rfl
  · rfl

/-! Cache upsert store (lines 265–287 and `WorkoutCache`, models.py 149–181)

The table is a list of rows plus a fresh-id counter (standing for the
`uuid4` primary-key default). `ON CONFLICT (user_id, source,
source_workout_id) DO UPDATE` overwrites exactly the columns of the
`set_` dict of lines 271–283 — note `last_synced` is *not* among them, its
`server_default` fires on insert only. -/

structure Row where
  rid : Nat
  user_id : Nat
  source : String
  source_workout_id : String
  workout_date : Int
  title : String
  duration_minutes : Int
  total_sets : Nat
  total_volume_kg : ℚ
  bodyweight_reps : Nat
  exercise_count : Nat
  calories_burned : Option Int
  muscle_groups : List String
  workout_data : RawWorkout
  last_synced : Int
  created_at : Int
  deriving DecidableEq, Repr

structure Store where
  rows : List Row
  nextId : Nat
  deriving DecidableEq, Repr

/-- The unique key of `WorkoutCache` (models.py line 153). -/
def rowKey (row : Row) : Nat × String × String :=
  (row.user_id, row.source, row.source_workout_id)

def recKey (r : Record) : Nat × String × String :=
  (r.user_id, r.source, r.source_workout_id)

/-- The `set_` dict of the conflict clause (lines 271–283): every derived
field is overwritten; identity fields, `created_at` and `last_synced` are
not touched. -/
def applySet (r : Record) (row : Row) : Row :=
  { row with
    workout_date := r.workout_date
    title := r.title
    duration_minutes := r.duration_minutes
    total_sets := r.total_sets
    total_volume_kg := r.total_volume_kg
    bodyweight_reps := r.bodyweight_reps
    exercise_count := r.exercise_count
    calories_burned := r.calories_burned
    muscle_groups := r.muscle_groups
    workout_data := r.workout_data }

/-- A freshly inserted row: identity and derived fields from the record,
`last_synced` and `created_at` from their server defaults (`now`). -/
def newRow (rid : Nat) (now : Int) (r : Record) : Row :=
  { rid := rid
    user_id := r.user_id
    source := r.source
    source_workout_id := r.source_workout_id
    workout_date := r.workout_date
    title := r.title
    duration_minutes := r.duration_minutes
    total_sets := r.total_sets
    total_volume_kg := r.total_volume_kg
    bodyweight_reps := r.bodyweight_reps
    exercise_count := r.exercise_count
    calories_burned := r.calories_burned
    muscle_groups := r.muscle_groups
    workout_data := r.workout_data
    last_synced := now
    created_at := now }

/-- Update a row only when it collides with the record's key. -/
def updIf (r : Record) (row : Row) : Row :=
  if rowKey row = recKey r then applySet r row else row

/-- One upsert: insert, or on key conflict update all colliding rows. -/
def upsert1 (st : Store) (now : Int) (r : Record) : Store :=
  if st.rows.any fun row => decide (rowKey row = recKey r) then
    { st with rows := st.rows.map (updIf r) }
  else
    { rows := st.rows ++ [newRow st.nextId now r], nextId := st.nextId + 1 }

/-- The bulk upsert of one record batch (one `INSERT ... ON CONFLICT`
statement, applied row by row). -/
def upsertBatch (st : Store) (now : Int) (rs : List Record) : Store :=
  rs.foldl (fun s r => upsert1 s now r) st

/-- Some row of the list carries the key. -/
def hasKey (rows : List Row) (k : Nat × String × String) : Prop :=
  ∃ row ∈ rows, rowKey row = k

theorem rowKey_applySet (r : Record) (row : Row) : rowKey (applySet r row) = rowKey row := rfl

theorem rowKey_updIf (r : Record) (row : Row) : rowKey (updIf r row) = rowKey row := by
  rw [updIf]; split <;> rfl

theorem applySet_applySet (r r' : Record) (row : Row) :
    applySet r (applySet r' row) = applySet r row := rfl

theorem applySet_newRow (i : Nat) (n : Int) (r : Record) :
    applySet r (newRow i n r) = newRow i n r := rfl

theorem upsert1_pos (st : Store) (now : Int) (r : Record) (hk : hasKey st.rows (recKey r)) :
    upsert1 st now r = { st with rows := st.rows.map (updIf r) } := by
  rcases hk with ⟨row, hrow, hkey⟩
  rw [upsert1, if_pos]
  rw [List.any_eq_true]
  exact ⟨row, hrow, by simp [hkey]⟩

theorem hasKey_map_updIf (rows : List Row) (r : Record) (k : Nat × String × String) :
    hasKey (rows.map (updIf r)) k ↔ hasKey rows k := by
  constructor
  · rintro ⟨row, hrow, hkey⟩
    rcases List.mem_map.mp hrow with ⟨row0, hrow0, rfl⟩
    exact ⟨row0, hrow0, by rw [← rowKey_updIf r row0]; exact hkey⟩
  · rintro ⟨row, hrow, hkey⟩
    exact ⟨updIf r row, List.mem_map.mpr ⟨row, hrow, rfl⟩, by rw [rowKey_updIf]; exact hkey⟩

theorem hasKey_upsert1 (st : Store) (now : Int) (r : Record) (k : Nat × String × String)
    (hk : hasKey st.rows k) : hasKey (upsert1 st now r).rows k := by
  rw [upsert1]
  split
  · exact (hasKey_map_updIf st.rows r k).mpr hk
  · rcases hk with ⟨row, hrow, hkey⟩
    exact ⟨row, List.mem_append_left _ hrow, hkey⟩

theorem hasKey_upsert1_self (st : Store) (now : Int) (r : Record) :
    hasKey (upsert1 st now r).rows (recKey r) := by
  by_cases hk : hasKey st.rows (recKey r)
  · rw [upsert1_pos st now r hk]
    exact (hasKey_map_updIf st.rows r (recKey r)).mpr hk
  · rw [upsert1, if_neg]
    · exact ⟨newRow st.nextId now r, List.mem_append_right _ (List.mem_singleton.mpr rfl), rfl⟩
    · intro h
      rcases List.any_eq_true.mp h with ⟨row, hrow, hkey⟩
      exact hk ⟨row, hrow, of_decide_eq_true hkey⟩

theorem hasKey_upsertBatch (rs : List Record) (st : Store) (now : Int)
    (k : Nat × String × String) (hk : hasKey st.rows k) :
    hasKey (upsertBatch st now rs).rows k := by
  induction rs generalizing st with
  | nil => exact hk
  | cons r rs ih => exact ih (upsert1 st now r) (hasKey_upsert1 st now r k hk)

theorem hasKey_upsertBatch_self (rs : List Record) (st : Store) (now : Int)
    (r : Record) (hr : r ∈ rs) : hasKey (upsertBatch st now rs).rows (recKey r) := by
  induction rs generalizing st with
  | nil => exact absurd hr (List.not_mem_nil r)
  | cons r0 rs ih =>
      rcases List.mem_cons.mp hr with rfl | hr0
      · exact hasKey_upsertBatch rs (upsert1 st now r) now (recKey r)
          (hasKey_upsert1_self st now r)
      · exact ih (upsert1 st now r0) hr0

/-- When every record of the batch already collides, the whole batch is a
pure map over the existing rows. -/
theorem upsertBatch_all_conflict (rs : List Record) (st : Store) (now : Int)
    (hall : ∀ r ∈ rs, hasKey st.rows (recKey r)) :
    upsertBatch st now rs =
      { st with rows := st.rows.map fun row => rs.foldl (fun row r => updIf r row) row } := by
  induction rs generalizing st with
  | nil => simp [upsertBatch]
  | cons r rs ih =>
      have h1 : upsert1 st now r = { st with rows := st.rows.map (updIf r) } :=
        upsert1_pos st now r (hall r (List.mem_cons_self r rs))
      have h2 : ∀ r' ∈ rs, hasKey ({ st with rows := st.rows.map (updIf r) } : Store).rows
          (recKey r') := by
        intro r' hr'
        exact (hasKey_map_updIf st.rows r (recKey r')).mpr (hall r' (List.mem_cons_of_mem r hr'))
      show upsertBatch (upsert1 st now r) now rs = _
      rw [h1, ih _ h2]
      simp [List.map_map, Function.comp]

/-- The last record of the batch carrying a given key. -/
def lastMatch (k : Nat × String × String) : List Record → Option Record
  | [] => none
  | r :: rs =>
      match lastMatch k rs with
      | some r' => some r'
      | none => if recKey r = k then some r else none

theorem lastMatch_eq_none (k : Nat × String × String) (rs : List Record)
    (h : lastMatch k rs = none) : ∀ r ∈ rs, recKey r ≠ k := by
  induction rs with
  | nil => intro r hr; exact absurd hr (List.not_mem_nil r)
  | cons r0 rs ih =>
      intro r hr
      rw [lastMatch] at h
      rcases htail : lastMatch k rs with _ | r'
      · rw [htail] at h
        rcases List.mem_cons.mp hr with rfl | hr0
        · intro hk
          rw [if_pos hk] at h
          exact Option.some_ne_none r h
        · exact ih htail r hr0
      · rw [htail] at h
        exact absurd h (Option.some_ne_none r')

theorem updIf_pos (r : Record) (row : Row) (hk : rowKey row = recKey r) :
    updIf r row = applySet r row := by
  unfold updIf
  rw [if_pos hk]

theorem updIf_neg (r : Record) (row : Row) (hk : ¬ rowKey row = recKey r) :
    updIf r row = row := by
  unfold updIf
  rw [if_neg hk]

/-- A row that no record of the batch collides with passes the update fold
unchanged. -/
theorem foldl_updIf_none (rs : List Record) : ∀ row : Row,
    lastMatch (rowKey row) rs = none →
    rs.foldl (fun row r => updIf r row) row = row := by
  induction rs with
  | nil => intro row _; rfl
  | cons r0 rs ih =>
      intro row h
      have htail : lastMatch (rowKey row) rs = none := by
        rcases he : lastMatch (rowKey row) rs with _ | r'
        · rfl
        · rw [lastMatch, he] at h
          exact Option.noConfusion h
      have hcond : ¬ recKey r0 = rowKey row := by
        intro hc
        rw [lastMatch, htail, if_pos hc] at h
        exact Option.noConfusion h
      rw [List.foldl_cons, updIf_neg r0 row fun hh => hcond hh.symm, ih row htail]

/-- The update fold applies exactly the last colliding record: later
updates absorb earlier ones. -/
theorem foldl_updIf_some (rs : List Record) (r : Record) : ∀ row : Row,
    lastMatch (rowKey row) rs = some r →
    rs.foldl (fun row r => updIf r row) row = applySet r row := by
  induction rs with
  | nil => intro row h; exact Option.noConfusion h
  | cons r0 rs ih =>
      intro row h
      rcases htail : lastMatch (rowKey row) rs with _ | r'
      · rw [lastMatch, htail] at h
        by_cases hc : recKey r0 = rowKey row
        · rw [if_pos hc] at h
          injection h with h2
          subst h2
          rw [List.foldl_cons, updIf_pos r0 row hc.symm]
          exact foldl_updIf_none rs (applySet r0 row)
            (by rw [rowKey_applySet]; exact htail)
        · rw [if_neg hc] at h
          exact Option.noConfusion h
      · rw [lastMatch, htail] at h
        injection h with h2
        subst h2
        rw [List.foldl_cons, ih (updIf r0 row) (by rw [rowKey_updIf]; exact htail)]
        by_cases hc : rowKey row = recKey r0
        · rw [updIf_pos r0 row hc, applySet_applySet]
        · rw [updIf_neg r0 row hc]

/-- Rows whose key no batch record carries pass through the batch
untouched. -/
theorem upsert1_untouched (st : Store) (now : Int) (r : Record)
    (k : Nat × String × String) (hne : recKey r ≠ k) (row : Row)
    (hrow : row ∈ (upsert1 st now r).rows) (hkey : rowKey row = k) : row ∈ st.rows := by
  rw [upsert1] at hrow
  split at hrow
  · rcases List.mem_map.mp hrow with ⟨row0, hrow0, rfl⟩
    by_cases hq : rowKey row0 = recKey r
    · exfalso
      rw [rowKey_updIf] at hkey
      exact hne (by rw [← hq]; exact hkey)
    · rw [updIf_neg r row0 hq]
      exact hrow0
  · rcases List.mem_append.mp hrow with h | h
    · exact h
    · rw [List.mem_singleton] at h
      subst h
      exact absurd hkey hne

theorem upsertBatch_untouched (now : Int) (rs : List Record) (k : Nat × String × String) :
    (∀ r ∈ rs, recKey r ≠ k) → ∀ (st : Store) (row : Row),
      row ∈ (upsertBatch st now rs).rows → rowKey row = k → row ∈ st.rows := by
  induction rs with
  | nil => intro _ st row hrow _; exact hrow
  | cons r rs ih =>
      intro hne st row hrow hkey
      have h1 : row ∈ (upsert1 st now r).rows :=
        ih (fun r' hr' => hne r' (List.mem_cons_of_mem r hr')) (upsert1 st now r) row hrow hkey
      exact upsert1_untouched st now r k (hne r (List.mem_cons_self r rs)) row h1 hkey

/-- After one upsert of `r`, every row carrying `r`'s key already holds
`r`'s derived fields. -/
theorem upsert1_settled (st : Store) (now : Int) (r : Record) (row : Row)
    (hrow : row ∈ (upsert1 st now r).rows) (hkey : rowKey row = recKey r) :
    applySet r row = row := by
  rw [upsert1] at hrow
  split at hrow
  · rcases List.mem_map.mp hrow with ⟨row0, hrow0, rfl⟩
    by_cases hq : rowKey row0 = recKey r
    · rw [updIf_pos r row0 hq, applySet_applySet]
    · rw [updIf_neg r row0 hq] at hkey ⊢
      exact absurd hkey hq
  · rename_i hq
    rcases List.mem_append.mp hrow with h | h
    · exfalso
      apply hq
      rw [List.any_eq_true]
      exact ⟨row, h, by simp [hkey]⟩
    · rw [List.mem_singleton] at h
      subst h
      exact applySet_newRow st.nextId now r

/-- After a whole batch, every row is settled with respect to the last
batch record carrying its key. -/
theorem upsertBatch_settled (now : Int) (rs : List Record) :
    ∀ (st : Store) (row : Row), row ∈ (upsertBatch st now rs).rows →
      ∀ r : Record, lastMatch (rowKey row) rs = some r → applySet r row = row := by
  induction rs with
  | nil => intro st row _ r hlast; exact Option.noConfusion hlast
  | cons r0 rs ih =>
      intro st row hrow r hlast
      have hrow0 : row ∈ (upsertBatch (upsert1 st now r0) now rs).rows := hrow
      rcases htail : lastMatch (rowKey row) rs with _ | r'
      · rw [lastMatch, htail] at hlast
        by_cases hk : recKey r0 = rowKey row
        · rw [if_pos hk] at hlast
          injection hlast with h2
          subst h2
          have huntouched : row ∈ (upsert1 st now r0).rows :=
            upsertBatch_untouched now rs (rowKey row)
              (lastMatch_eq_none (rowKey row) rs htail) (upsert1 st now r0) row hrow0 rfl
          exact upsert1_settled st now r0 row huntouched hk.symm
        · rw [if_neg hk] at hlast
          exact Option.noConfusion hlast
      · rw [lastMatch, htail] at hlast
        injection hlast with h2
        subst h2
        exact ih (upsert1 st now r0) row hrow0 r' htail

theorem map_eq_self_of_mem {f : Row → Row} (l : List Row) (h : ∀ a ∈ l, f a = a) :
    l.map f = l := by
  induction l with
  | nil => rfl
  | cons x xs ih =>
      rw [List.map_cons, h x (List.mem_cons_self x xs),
        ih fun a ha => h a (List.mem_cons_of_mem x ha)]

/-- C7. Upserting the same batch twice leaves exactly the state of
upserting it once: no new rows, no field changed — whatever server time
the second call runs at. -/
theorem upsertBatch_idempotent (st : Store) (now1 now2 : Int) (rs : List Record) :
    upsertBatch (upsertBatch st now1 rs) now2 rs = upsertBatch st now1 rs := by
  have hall : ∀ r ∈ rs, hasKey (upsertBatch st now1 rs).rows (recKey r) :=
    fun r hr => hasKey_upsertBatch_self rs st now1 r hr
  rw [upsertBatch_all_conflict rs (upsertBatch st now1 rs) now2 hall]
  have hmap : (upsertBatch st now1 rs).rows.map
      (fun row => rs.foldl (fun row r => updIf r row) row) = (upsertBatch st now1 rs).rows := by
    apply map_eq_self_of_mem
    intro row hrow
    rcases hlast : lastMatch (rowKey row) rs with _ | r
    · exact foldl_updIf_none rs row hlast
    · rw [foldl_updIf_some rs r row hlast]
      exact upsertBatch_settled now1 rs st row hrow r hlast
  rcases hst : upsertBatch st now1 rs with ⟨rows, nid⟩
  rw [hst] at hmap
  simp only at hmap ⊢
  rw [hmap]

/-- C6 (amended). On key collision the upsert only rewrites the rows
through the `set_` dict: the ten derived fields take the record's values,
while the identity fields, `created_at` *and* `last_synced` keep the
stored row's values (`last_synced` is absent from the conflict clause, so
it is not refreshed). -/
theorem upsert_conflict_semantics (st : Store) (now : Int) (r : Record) (row : Row)
    (hrow : row ∈ st.rows) (hmatch : rowKey row = recKey r) :
    upsert1 st now r = { st with rows := st.rows.map (updIf r) } ∧
    updIf r row = applySet r row ∧
    ((applySet r row).workout_date = r.workout_date ∧
     (applySet r row).title = r.title ∧
     (applySet r row).duration_minutes = r.duration_minutes ∧
     (applySet r row).total_sets = r.total_sets ∧
     (applySet r row).total_volume_kg = r.total_volume_kg ∧
     (applySet r row).bodyweight_reps = r.bodyweight_reps ∧
     (applySet r row).exercise_count = r.exercise_count ∧
     (applySet r row).calories_burned = r.calories_burned ∧
     (applySet r row).muscle_groups = r.muscle_groups ∧
     (applySet r row).workout_data = r.workout_data) ∧
    ((applySet r row).rid = row.rid ∧
     (applySet r row).user_id = row.user_id ∧
     (applySet r row).source = row.source ∧
     (applySet r row).source_workout_id = row.source_workout_id ∧
     (applySet r row).created_at = row.created_at ∧
     (applySet r row).last_synced = row.last_synced) := by
  refine ⟨upsert1_pos st now r ⟨row, hrow, hmatch⟩, updIf_pos r row hmatch, ?_, ?_⟩
  · exact ⟨rfl, rfl, rfl, rfl, rfl, rfl, rfl, rfl, rfl, rfl⟩
  · exact ⟨rfl, rfl, rfl, rfl, rfl, rfl⟩

/-- A concrete raw workout, cached row, incoming record and store used by
the upsert examples. -/
def exWorkout : RawWorkout := ⟨"w-1", some "Push", some 0, some 3600, []⟩

def exRow : Row :=
  ⟨1, 10, "hevy", "w-1", 0, "old title", 50, 3, 100, 0, 2, none, [], exWorkout, 5, 1⟩

def exRec : Record :=
  ⟨10, "hevy", "w-1", 60, "new title", 45, 4, 200, 1, 3, none, ["chest"], exWorkout⟩

def exStore : Store := ⟨[exRow], 2⟩

theorem upsert_conflict_semantics_witness :
    upsert1 exStore 99 exRec = { exStore with rows := exStore.rows.map (updIf exRec) } ∧
    updIf exRec exRow = applySet exRec exRow ∧
    ((applySet exRec exRow).workout_date = exRec.workout_date ∧
     (applySet exRec exRow).title = exRec.title ∧
     (applySet exRec exRow).duration_minutes = exRec.duration_minutes ∧
     (applySet exRec exRow).total_sets = exRec.total_sets ∧
     (applySet exRec exRow).total_volume_kg = exRec.total_volume_kg ∧
     (applySet exRec exRow).bodyweight_reps = exRec.bodyweight_reps ∧
     (applySet exRec exRow).exercise_count = exRec.exercise_count ∧
     (applySet exRec exRow).calories_burned = exRec.calories_burned ∧
     (applySet exRec exRow).muscle_groups = exRec.muscle_groups ∧
     (applySet exRec exRow).workout_data = exRec.workout_data) ∧
    ((applySet exRec exRow).rid = exRow.rid ∧
     (applySet exRec exRow).user_id = exRow.user_id ∧
     (applySet exRec exRow).source = exRow.source ∧
     (applySet exRec exRow).source_workout_id = exRow.source_workout_id ∧
     (applySet exRec exRow).created_at = exRow.created_at ∧
     (applySet exRec exRow).last_synced = exRow.last_synced) :=
  upsert_conflict_semantics exStore 99 exRec exRow (List.mem_singleton.mpr rfl) rfl

/-- C6 counterexample. The colliding upsert at server time 99 does
rewrite `title`, yet leaves `last_synced` at its old value 5: it is not
refreshed as the claim states. -/
theorem upsert_last_synced_not_refreshed :
    (upsert1 exStore 99 exRec).rows.map Row.title = ["new title"] ∧
    (upsert1 exStore 99 exRec).rows.map Row.last_synced = [5] ∧
    (5 : Int) ≠ 99 := by
  refine ⟨rfl, rfl, by decide⟩

/-! Plateau detector (workout_tools.py, `detect_plateaus`, lines 543–636)

One entry of `session_history` as the detector reads it: the session date
(ISO date strings of one format sort chronologically, so a whole-day
integer) and the session's max weight. -/

structure Session where
  date : Int
  max_weight_lbs : ℚ
  deriving DecidableEq, Repr

inductive PlateauStatus
  | INSUFFICIENT_DATA
  | PLATEAU_DETECTED
  | PROGRESSING
  deriving DecidableEq, Repr

/-- Stable ascending insertion by date (`sessions.sort(key=...)`,
line 586). -/
def insertAscS (s : Session) : List Session → List Session
  | [] => [s]
  | x :: xs => if x.date ≤ s.date then x :: insertAscS s xs else s :: x :: xs

def sortByDate (l : List Session) : List Session :=
  l.foldl (fun acc s => insertAscS s acc) []

/-- The analysed window: the last 5 sessions of the date-sorted history
(`sessions[-5:]`, line 589). -/
def recentWindow (sessions : List Session) : List Session :=
  let sorted := sortByDate sessions
  sorted.drop (sorted.length - 5)

def windowWeights (sessions : List Session) : List ℚ :=
  (recentWindow sessions).map (·.max_weight_lbs)

/-- Code `first_weight = weights[0]` (line 596). -/
def windowFirst (sessions : List Session) : ℚ :=
  (windowWeights sessions).headD 0

/-- Code `last_weight = weights[-1]` (line 597). -/
def windowLast (sessions : List Session) : ℚ :=
  (windowWeights sessions).getLastD 0

/-- Code `max_in_recent = max(weights)` (line 598). -/
def windowMax (sessions : List Session) : ℚ :=
  (windowWeights sessions).foldl max ((windowWeights sessions).headD 0)

/-- Code `days_stuck` (line 609): span in days between the window's first and
last session. -/
def windowSpan (sessions : List Session) : Int :=
  ((recentWindow sessions).map (·.date)).getLastD 0 -
    ((recentWindow sessions).map (·.date)).headD 0

/-- Function `detect_plateaus` (lines 543–636). Fewer than 4 sessions is
insufficient data; a plateau needs (`is_flat` or `is_stuck`) and more than
14 days of span. When the window's first weight is 0 the source raises
`ZeroDivisionError` while building `growth_percentage` (line 632) in
either branch, so no status is returned: `none`. -/
def detect_plateaus (sessions : List Session) : Option PlateauStatus :=
  if sessions.length < 4 then some .INSUFFICIENT_DATA
  else if windowFirst sessions = 0 then none
  else some (
    if (windowLast sessions ≤ windowFirst sessions * (1025/1000) ∨
        windowLast sessions < windowMax sessions) ∧
       windowSpan sessions > 14
    then .PLATEAU_DETECTED else .PROGRESSING)

/-- The two worked examples: max-weight sequences [200,202,201,200,199]
and [200,205,210,215,220], both spread over 20 days. -/
def exPlateauSessions : List Session :=
  [⟨0, 200⟩, ⟨5, 202⟩, ⟨10, 201⟩, ⟨15, 200⟩, ⟨20, 199⟩]

def exProgressSessions : List Session :=
  [⟨0, 200⟩, ⟨5, 205⟩, ⟨10, 210⟩, ⟨15, 215⟩, ⟨20, 220⟩]

/-- Four sessions of an unloaded (0-weight) exercise over 20 days. -/
def exZeroSessions : List Session :=
  [⟨0, 0⟩, ⟨1, 0⟩, ⟨2, 0⟩, ⟨20, 0⟩]

/-- C8 (amended). Fewer than 4 sessions gives insufficient data;
otherwise, provided the window's first max weight is nonzero, the status
is `PLATEAU_DETECTED` exactly when (last ≤ first × 1.025 or last < window
max) and the window spans more than 14 days, else `PROGRESSING`. The two
sequence examples of the claim behave as stated. -/
theorem detect_plateaus_spec :
    (∀ s : List Session, s.length < 4 →
        detect_plateaus s = some PlateauStatus.INSUFFICIENT_DATA) ∧
    (∀ s : List Session, 4 ≤ s.length → windowFirst s ≠ 0 →
        (detect_plateaus s = some PlateauStatus.PLATEAU_DETECTED ↔
          ((windowLast s ≤ windowFirst s * (1025/1000) ∨ windowLast s < windowMax s) ∧
           windowSpan s > 14)) ∧
        (detect_plateaus s = some PlateauStatus.PLATEAU_DETECTED ∨
         detect_plateaus s = some PlateauStatus.PROGRESSING)) ∧
    detect_plateaus exPlateauSessions = some PlateauStatus.PLATEAU_DETECTED ∧
    detect_plateaus exProgressSessions = some PlateauStatus.PROGRESSING := by
  refine ⟨?_, ?_, ?_, ?_⟩
  · intro s h
    rw [detect_plateaus, if_pos h]
  · intro s hlen hfz
    rw [detect_plateaus, if_neg (by omega), if_neg hfz]
    by_cases hp : (windowLast s ≤ windowFirst s * (1025/1000) ∨ windowLast s < windowMax s) ∧
        windowSpan s > 14
    · rw [if_pos hp]
      exact ⟨⟨fun _ => hp, fun _ => rfl⟩, Or.inl rfl⟩
    · rw [if_neg hp]
      exact ⟨⟨fun h => absurd (Option.some.inj h) (by simp), fun h => absurd h hp⟩, Or.inr rfl⟩
  · norm_num [detect_plateaus, windowFirst, windowLast, windowMax, windowSpan, windowWeights,
      recentWindow, sortByDate, insertAscS, exPlateauSessions, max_def]
  · norm_num [detect_plateaus, windowFirst, windowLast, windowMax, windowSpan, windowWeights,
      recentWindow, sortByDate, insertAscS, exProgressSessions, max_def]

theorem detect_plateaus_spec_witness :
    detect_plateaus [⟨0, 100⟩] = some PlateauStatus.INSUFFICIENT_DATA :=
  detect_plateaus_spec.1 [⟨0, 100⟩] (by decide)

/-- C8 counterexample. Four sessions at weight 0 over 20 days satisfy
the claim's plateau condition (flat and a span beyond 14 days), yet the
code fails on the growth-percentage division instead of declaring a
plateau: no status at all is produced. -/
theorem detect_plateaus_zero_weight_counterexample :
    detect_plateaus exZeroSessions = none ∧
    windowLast exZeroSessions ≤ windowFirst exZeroSessions * (1025/1000) ∧
    windowSpan exZeroSessions > 14 := by
  refine ⟨?_, ?_, ?_⟩ <;>
    norm_num [detect_plateaus, windowFirst, windowLast, windowSpan, windowWeights,
      recentWindow, sortByDate, insertAscS, exZeroSessions]

/-! Pagination loops (C9)

Remote responses are abstracted as a function from page number to the
returned list; the loop control flow is embedded exactly. -/

structure ExTemplate where
  title : String
  deriving DecidableEq, Repr

def leadsWith : List Char → List Char → Bool
  | [], _ => true
  | _ :: _, [] => false
  | a :: as, b :: bs => (a == b) && leadsWith as bs

/-- Substring test over char lists: Python's `in` on strings. -/
def listContains (needle : List Char) : List Char → Bool
  | [] => needle.isEmpty
  | l@(_ :: rest) => leadsWith needle l || listContains needle rest

/-- Code `query_lower in title.lower()` (line 171). -/
def titleMatches (q : String) (e : ExTemplate) : Bool :=
  listContains q.toLower.data e.title.toLower.data

/-- The `search_exercises` loop (lines 156–181): `while page <= max_pages`
with breaks on an empty page, ≥ 10 accumulated matches, or a short page.
`fuel` counts the remaining admissible pages (`max_pages - page + 1`); the
second component of the result counts pages actually fetched. -/
def searchGo (resp : Nat → List ExTemplate) (q : String) :
    Nat → Nat → List ExTemplate → Nat → List ExTemplate × Nat
  | 0, _, acc, fetched => (acc, fetched)
  | fuel + 1, page, acc, fetched =>
      let xs := resp page
      if xs.isEmpty then (acc, fetched + 1)
      else
        let m := acc ++ xs.filter (titleMatches q)
        if 10 ≤ m.length || xs.length < 100 then (m, fetched + 1)
        else searchGo resp q fuel (page + 1) m (fetched + 1)

/-- Body of `search_exercises`: `max_pages = 5`, starting at page 1, then
`matches[:10]`. -/
def search_exercises_run (resp : Nat → List ExTemplate) (q : String) :
    List ExTemplate × Nat :=
  let r := searchGo resp q 5 1 [] 0
  (r.1.take 10, r.2)

/-- The `sync_hevy_workouts` page loop (lines 220–295): `while True`,
breaking on an empty page or, after processing, when `sync_all` is off or
the page was short. `fuel` bounds the modelled iterations: `none` means
the loop was still running when the fuel ran out. -/
def syncRun (resp : Nat → List RawWorkout) (sync_all : Bool) (page_size : Nat) :
    Nat → Nat → Nat → Option Nat
  | 0, _, _ => none
  | fuel + 1, page, total =>
      let ws := resp page
      if ws.isEmpty then some total
      else
        let total2 := total + ws.length
        if !sync_all || decide (ws.length < page_size) then some total2
        else syncRun resp sync_all page_size fuel (page + 1) total2

/-- The sync loop never breaks, whatever finite fuel it is observed
under. -/
def syncDiverges (resp : Nat → List RawWorkout) (sync_all : Bool) (page_size : Nat) : Prop :=
  ∀ fuel : Nat, syncRun resp sync_all page_size fuel 1 0 = none

/-- A remote service that forever returns full pages of 10 workouts. -/
def fullPages : Nat → List RawWorkout :=
  fun _ => List.replicate 10 ⟨"x", none, some 0, some 0, []⟩

theorem syncRun_fullPages_none (fuel : Nat) :
    ∀ page total, syncRun fullPages true 10 fuel page total = none := by
  induction fuel with
  | zero => intro page total; rfl
  | succ fuel ih =>
      intro page total
      show syncRun fullPages true 10 (fuel + 1) page total = none
      rw [syncRun]
      have h1 : (fullPages page).isEmpty = false := rfl
      have h2 : (!true || decide ((fullPages page).length < 10)) = false := rfl
      simp only [h1, Bool.false_eq_true, if_false, h2]
      exact ih (page + 1) (total + (fullPages page).length)

theorem searchGo_pages_le (resp : Nat → List ExTemplate) (q : String) (fuel : Nat) :
    ∀ page acc fetched,
      (searchGo resp q fuel page acc fetched).2 ≤ fetched + fuel := by
  induction fuel with
  | zero => intro page acc fetched; exact Nat.le_refl fetched
  | succ fuel ih =>
      intro page acc fetched
      rw [searchGo]
      by_cases h1 : (resp page).isEmpty
      · rw [if_pos h1]
        omega
      · rw [if_neg h1]
        by_cases h2 : (10 ≤ (acc ++ (resp page).filter (titleMatches q)).length ||
            (resp page).length < 100) = true
        · rw [if_pos h2]
          show fetched + 1 ≤ fetched + (fuel + 1)
          omega
        · rw [if_neg h2]
          have := ih (page + 1) (acc ++ (resp page).filter (titleMatches q)) (fetched + 1)
          omega

/-- C9 (amended). The exercise-template search loop is hard-capped at
5 page fetches for every possible response sequence, and the sync loop
stops after its first page whenever `sync_all` is off; but with
`sync_all` on the sync loop has no ceiling: a service that keeps
returning full pages keeps it running past any bound. -/
theorem pagination_bounds :
    (∀ (resp : Nat → List ExTemplate) (q : String), (search_exercises_run resp q).2 ≤ 5) ∧
    (∀ (resp : Nat → List RawWorkout) (ps fuel page total : Nat),
        (syncRun resp false ps (fuel + 1) page total).isSome = true) ∧
    syncDiverges fullPages true 10 := by
  refine ⟨?_, ?_, ?_⟩
  · intro resp q
    exact searchGo_pages_le resp q 5 1 [] 0
  · intro resp ps fuel page total
    rw [syncRun]
    by_cases h1 : (resp page).isEmpty
    · rw [if_pos h1]; rfl
    · rw [if_neg h1]
      have h2 : (!false || decide ((resp page).length < ps)) = true := rfl
      rw [if_pos h2]
      rfl
  · intro fuel
    exact syncRun_fullPages_none fuel 1 0

/-- C9 counterexample. Against a service that forever returns full
pages, a `sync_all` sync never leaves its page loop: for every finite
iteration bound it is still running, so no fixed hard page ceiling
exists. -/
theorem sync_no_ceiling_counterexample : syncDiverges fullPages true 10 :=
  fun fuel => syncRun_fullPages_none fuel 1 0

end WorkoutOptimizer
